import Mathlib

/-!
Verification development for the steam-hour-boost repository.

The definitions below are a shallow embedding of the core of the
repository: the encryption utilities (src/utils/encryption.js), the
credential middleware (src/middleware/auth.js), the account manager and
the Steam session state machine (src/services/steamService.js), the
persistence layer rows they touch (src/models/database.js) and the REST
entry points that drive them (src/routes/accounts.js, src/routes/auth.js).

External dependencies of the repository (the Node crypto AES-256-GCM
cipher, the base64 text codec of Buffer, the SteamTotp code generator)
are modelled as idealized executable functions: an invertible keyed
stream transformation with an authentication tag, a fixed-width digit
rendering of byte sequences that never contains the colon separator, and
a deterministic code derivation.  Everything the repository itself does
(envelope layout, marker handling, validation branches, error paths,
state transitions, persistence writes) is translated directly from the
source.
-/

namespace HourBoost

/-- A byte sequence (Node Buffer) is modelled as a list of naturals. -/
abbrev Bytes := List Nat

/-! ## Configuration constants, from src/config.js -/

/-- reconnectDelay from config.js: 30 seconds in milliseconds. -/
def reconnectDelay : Nat := 30000

/-- maxReconnectAttempts from config.js. -/
def maxReconnectAttempts : Nat := 10

/-- defaultGames from config.js (CS2). -/
def defaultGames : List Nat := [730]

/-- lockout.maxFailedLogins from config.js. -/
def maxFailedLogins : Nat := 3

/-- lockout.baseDuration from config.js: 30 minutes in milliseconds. -/
def lockoutBaseDuration : Nat := 30 * 60 * 1000

/-- lockout.maxDuration from config.js: 24 hours in milliseconds. -/
def lockoutMaxDuration : Nat := 24 * 60 * 60 * 1000

/-! ## Envelope text codec

Models the base64 rendering of byte buffers used inside the ciphertext
envelope (Buffer.toString of the Node runtime).  The properties the
repository relies on are that the rendering is injective and that its
characters never include the colon that separates the envelope fields;
a fixed width of six base-64 digits per value realises both. -/

/-- One base-64 digit character (A-Z, a-z, 0-9, +, /). -/
def b64digit (d : Nat) : Char :=
  if d < 26 then Char.ofNat (65 + d)
  else if d < 52 then Char.ofNat (97 + (d - 26))
  else if d < 62 then Char.ofNat (48 + (d - 52))
  else if d = 62 then '+'
  else '/'

/-- Inverse of `b64digit` on digit values below 64. -/
def b64value (c : Char) : Nat :=
  let n := c.toNat
  if 65 ≤ n ∧ n < 91 then n - 65
  else if 97 ≤ n ∧ n < 123 then 26 + (n - 97)
  else if 48 ≤ n ∧ n < 58 then 52 + (n - 48)
  else if n = 43 then 62
  else 63

/-- Fixed-width little-endian base-64 rendering of one value below 64^6. -/
def encNat6 (n : Nat) : List Char :=
  [b64digit (n % 64), b64digit (n / 64 % 64), b64digit (n / 4096 % 64),
   b64digit (n / 262144 % 64), b64digit (n / 16777216 % 64), b64digit (n / 1073741824 % 64)]

/-- Recombine six base-64 digit characters into the encoded value. -/
def decNat6 (c0 c1 c2 c3 c4 c5 : Char) : Nat :=
  b64value c0 + 64 * b64value c1 + 4096 * b64value c2 +
    262144 * b64value c3 + 16777216 * b64value c4 + 1073741824 * b64value c5

/-- Render a byte sequence as envelope text. -/
def encBytes (l : Bytes) : List Char := (l.map encNat6).flatten

/-- Parse envelope text back into a byte sequence; fails when the text is
not a whole number of six-character groups. -/
def decBytes : List Char → Option Bytes
  | [] => some []
  | c0 :: c1 :: c2 :: c3 :: c4 :: c5 :: rest =>
    (decBytes rest).map (fun t => decNat6 c0 c1 c2 c3 c4 c5 :: t)
  | _ => none

/-! ## Idealized AES-256-GCM cipher (external Node crypto library) -/

/-- Abstract mixing hash over a byte sequence, used by the cipher model. -/
def mixHash (l : Bytes) : Nat := l.foldl (fun a b => a * 131 + b + 1) 7

/-- Keystream byte of the idealized cipher: fully determined by key and
nonce, as for AES in counter mode. -/
def keystreamByte (key iv : Bytes) (i : Nat) : Nat :=
  (mixHash key * 2 + mixHash iv * 3 + i * 5) % 256

/-- XOR a data stream against the keystream starting at counter `i`.
Applying the transformation twice with the same key and nonce restores
the input, as for the real counter-mode cipher. -/
def ctrXor (key iv : Bytes) : Nat → Bytes → Bytes
  | _, [] => []
  | i, b :: rest => (b ^^^ keystreamByte key iv i) :: ctrXor key iv (i + 1) rest

/-- Idealized GCM authentication tag over key, nonce and ciphertext. -/
def gcmTag (key iv ct : Bytes) : Nat :=
  (mixHash key * 7 + mixHash iv * 11 + mixHash ct * 13) % 1073741824

/-! ## encryption.js -/

/-- ENCRYPTED_PREFIX from encryption.js: the envelope marker. -/
def encMagic : String := "$ENC$"

/-- isEncrypted from encryption.js: a stored value counts as encrypted
iff it starts with the "$ENC$" marker. -/
def isEncrypted (s : String) : Bool :=
  encMagic.data.isPrefixOf s.data

/-- Errors raised by the encryption utilities: a key that is not 32
bytes, an envelope that does not split into three fields, and an
authentication failure of the GCM tag (wrong key or corrupted data). -/
inductive CryptoError where
  | invalidKey
  | invalidFormat
  | authFailed
deriving DecidableEq

/-- encrypt from encryption.js.  The random nonce drawn inside the
source function is passed explicitly as `iv`.  Mirrors the source: a
falsy (empty) plaintext is returned unchanged and unencrypted, a key
that is not 32 bytes raises, and otherwise the result is the envelope
"$ENC$" ++ iv ++ ":" ++ authTag ++ ":" ++ ciphertext with the byte
fields rendered as text. -/
def encrypt (plaintext : String) (key iv : Bytes) : Except CryptoError String :=
  if plaintext = "" then .ok plaintext
  else if key.length ≠ 32 then .error .invalidKey
  else
    let ct := ctrXor key iv 0 (plaintext.data.map Char.toNat)
    let tag := gcmTag key iv ct
    .ok ⟨encMagic.data ++ encBytes iv ++ ':' :: encBytes [tag] ++ ':' :: encBytes ct⟩

/-- Model of the JavaScript String.split on the colon separator, used by
decrypt to take the envelope apart. -/
def splitOnColon : List Char → List (List Char)
  | [] => [[]]
  | c :: rest =>
    if c = ':' then [] :: splitOnColon rest
    else
      match splitOnColon rest with
      | [] => [[c]]
      | h :: t => (c :: h) :: t

/-- decrypt from encryption.js.  Mirrors the source order exactly: a
falsy value is returned unchanged; a value without the "$ENC$" marker is
returned unchanged (treated as legacy plaintext); a key that is not 32
bytes raises; an envelope that does not split into exactly three fields
raises the format error; and a ciphertext whose recomputed tag does not
match the stored tag raises the authentication error before any
plaintext is produced.  Unparseable field text is folded into the
authentication failure, as the mangled bytes it would produce in the
source can never verify. -/
def decrypt (encryptedText : String) (key : Bytes) : Except CryptoError String :=
  if encryptedText = "" then .ok encryptedText
  else if ¬ isEncrypted encryptedText then .ok encryptedText
  else if key.length ≠ 32 then .error .invalidKey
  else
    match splitOnColon (encryptedText.data.drop encMagic.data.length) with
    | [ivPart, tagPart, ctPart] =>
      match decBytes ivPart, decBytes tagPart, decBytes ctPart with
      | some iv, some [tagVal], some ct =>
        if gcmTag key iv ct = tagVal then
          .ok ⟨(ctrXor key iv 0 ct).map Char.ofNat⟩
        else .error .authFailed
      | _, _, _ => .error .authFailed
    | _ => .error .invalidFormat

/-! ## Codec lemmas -/

theorem b64value_b64digit : ∀ d, d < 64 → b64value (b64digit d) = d := by decide

theorem b64digit_ne_colon : ∀ d, d < 64 → b64digit d ≠ ':' := by decide

theorem decBytes_encBytes : ∀ l : Bytes, (∀ b ∈ l, b < 68719476736) →
    decBytes (encBytes l) = some l := by
  intro l
  induction l with
  | nil => intro _; rfl
  | cons b t ih =>
    intro h
    have hb : b < 68719476736 := h b (by simp)
    have ht : ∀ x ∈ t, x < 68719476736 := fun x hx => h x (by simp [hx])
    show decBytes (b64digit (b % 64) :: b64digit (b / 64 % 64) :: b64digit (b / 4096 % 64) ::
      b64digit (b / 262144 % 64) :: b64digit (b / 16777216 % 64) ::
      b64digit (b / 1073741824 % 64) :: encBytes t) = some (b :: t)
    rw [decBytes, ih ht]
    have h64 : (0:Nat) < 64 := by norm_num
    simp only [Option.map_some', decNat6,
      b64value_b64digit _ (Nat.mod_lt _ h64)]
    congr 2
    omega

theorem ctrXor_ctrXor (key iv : Bytes) : ∀ i l, ctrXor key iv i (ctrXor key iv i l) = l := by
  intro i l
  induction l generalizing i with
  | nil => rfl
  | cons b t ih =>
    simp [ctrXor, Nat.xor_assoc, Nat.xor_self, Nat.xor_zero, ih]

theorem ctrXor_lt (key iv : Bytes) : ∀ i l, (∀ b ∈ l, b < 4294967296) →
    ∀ x ∈ ctrXor key iv i l, x < 68719476736 := by
  intro i l
  induction l generalizing i with
  | nil => intro _ x hx; simp [ctrXor] at hx
  | cons b t ih =>
    intro h x hx
    simp only [ctrXor, List.mem_cons] at hx
    rcases hx with hx | hx
    · subst hx
      have h1 : b < 2 ^ 36 := by
        have := h b (by simp)
        omega
      have h2 : keystreamByte key iv i < 2 ^ 36 := by
        have := Nat.mod_lt (mixHash key * 2 + mixHash iv * 3 + i * 5) (y := 256) (by norm_num)
        simp only [keystreamByte]
        omega
      have := Nat.xor_lt_two_pow h1 h2
      omega
    · exact ih (i + 1) (fun y hy => h y (by simp [hy])) x hx

theorem splitOnColon_no_colon : ∀ l : List Char, (∀ c ∈ l, c ≠ ':') →
    splitOnColon l = [l] := by
  intro l
  induction l with
  | nil => intro _; rfl
  | cons c t ih =>
    intro h
    have hc : c ≠ ':' := h c (by simp)
    have ht : ∀ x ∈ t, x ≠ ':' := fun x hx => h x (by simp [hx])
    simp only [splitOnColon, if_neg hc, ih ht]

theorem splitOnColon_append : ∀ l : List Char, ∀ r, (∀ c ∈ l, c ≠ ':') →
    splitOnColon (l ++ ':' :: r) = l :: splitOnColon r := by
  intro l
  induction l with
  | nil => intro r _; simp [splitOnColon]
  | cons c t ih =>
    intro r h
    have hc : c ≠ ':' := h c (by simp)
    have ht : ∀ x ∈ t, x ≠ ':' := fun x hx => h x (by simp [hx])
    simp only [List.cons_append, splitOnColon, if_neg hc, List.append_eq, ih r ht]

theorem splitOnColon_envelope (a b c : List Char)
    (ha : ∀ x ∈ a, x ≠ ':') (hb : ∀ x ∈ b, x ≠ ':') (hc : ∀ x ∈ c, x ≠ ':') :
    splitOnColon (a ++ ':' :: (b ++ ':' :: c)) = [a, b, c] := by
  rw [splitOnColon_append a _ ha, splitOnColon_append b _ hb, splitOnColon_no_colon c hc]

theorem encNat6_ne_colon (n : Nat) : ∀ c ∈ encNat6 n, c ≠ ':' := by
  intro c hc
  have h64 : (0:Nat) < 64 := by norm_num
  simp only [encNat6, List.mem_cons, List.not_mem_nil, or_false] at hc
  rcases hc with h | h | h | h | h | h <;>
    (subst h; exact b64digit_ne_colon _ (Nat.mod_lt _ h64))

theorem encBytes_ne_colon (l : Bytes) : ∀ c ∈ encBytes l, c ≠ ':' := by
  intro c hc
  simp only [encBytes, List.mem_flatten, List.mem_map] at hc
  obtain ⟨chunk, ⟨b, _, rfl⟩, hcc⟩ := hc
  exact encNat6_ne_colon b c hcc

theorem isPrefixOf_append_self : ∀ l r : List Char, l.isPrefixOf (l ++ r) = true := by
  intro l r
  induction l with
  | nil => simp [List.isPrefixOf]
  | cons c t ih => simp [List.isPrefixOf, ih]

theorem char_toNat_lt (c : Char) : c.toNat < 4294967296 := by
  have h := c.val.toNat_lt
  simpa [Char.toNat] using h

/-! ## Decryption of a well-formed envelope -/

/-- The ciphertext envelope produced by encrypt, as a standalone builder:
"$ENC$" ++ iv ++ ":" ++ authTag ++ ":" ++ ciphertext. -/
def mkEnvelope (iv : Bytes) (tag : Nat) (ct : Bytes) : String :=
  ⟨encMagic.data ++ (encBytes iv ++ ':' :: (encBytes [tag] ++ ':' :: encBytes ct))⟩

theorem encrypt_eq (s : String) (key iv : Bytes) (hs : s ≠ "") (hk : key.length = 32) :
    encrypt s key iv =
      .ok (mkEnvelope iv (gcmTag key iv (ctrXor key iv 0 (s.data.map Char.toNat)))
        (ctrXor key iv 0 (s.data.map Char.toNat))) := by
  simp [encrypt, hs, hk, mkEnvelope, List.append_assoc]

theorem mkEnvelope_ne_empty (iv : Bytes) (tag : Nat) (ct : Bytes) :
    mkEnvelope iv tag ct ≠ "" := by
  intro h
  have hd := congrArg String.data h
  simp only [mkEnvelope] at hd
  have hmagic : encMagic.data ≠ [] := by decide
  rcases List.append_eq_nil.mp hd with ⟨h1, _⟩
  exact hmagic h1

theorem isEncrypted_mkEnvelope (iv : Bytes) (tag : Nat) (ct : Bytes) :
    isEncrypted (mkEnvelope iv tag ct) = true := by
  simp only [isEncrypted, mkEnvelope]
  exact isPrefixOf_append_self _ _

theorem decrypt_mkEnvelope (key iv ct : Bytes) (tag : Nat) (hk : key.length = 32)
    (hiv : ∀ b ∈ iv, b < 68719476736) (hct : ∀ b ∈ ct, b < 68719476736)
    (htag : tag < 68719476736) :
    decrypt (mkEnvelope iv tag ct) key =
      if gcmTag key iv ct = tag then .ok ⟨(ctrXor key iv 0 ct).map Char.ofNat⟩
      else .error .authFailed := by
  have hne := mkEnvelope_ne_empty iv tag ct
  have henc := isEncrypted_mkEnvelope iv tag ct
  have hdrop : (mkEnvelope iv tag ct).data.drop encMagic.data.length =
      encBytes iv ++ ':' :: (encBytes [tag] ++ ':' :: encBytes ct) := by
    simp only [mkEnvelope]
    exact List.drop_left _ _
  have hsplit := splitOnColon_envelope (encBytes iv) (encBytes [tag]) (encBytes ct)
    (encBytes_ne_colon iv) (encBytes_ne_colon [tag]) (encBytes_ne_colon ct)
  have htagl : ∀ b ∈ ([tag] : Bytes), b < 68719476736 := by
    intro b hb; simp only [List.mem_singleton] at hb; omega
  simp only [decrypt, if_neg hne, henc, not_true_eq_false, if_false, hk, ne_eq,
    not_false_eq_true, if_neg, hdrop, hsplit, decBytes_encBytes iv hiv,
    decBytes_encBytes ct hct, decBytes_encBytes [tag] htagl]

/-- C8 claim: for every non-empty string `s` and every valid 32-byte key
`k`, decrypt(encrypt(s, k), k) = s.  The random nonce of the source is
the explicit `iv` argument (randomBytes yields 16 bytes, each below
256). -/
theorem encrypt_decrypt_roundtrip (s : String) (key iv : Bytes)
    (hs : s ≠ "") (hk : key.length = 32) (_hkey : ∀ b ∈ key, b < 256)
    (hiv : ∀ b ∈ iv, b < 256) :
    ∃ env, encrypt s key iv = .ok env ∧ decrypt env key = .ok s := by
  refine ⟨_, encrypt_eq s key iv hs hk, ?_⟩
  have hchars : ∀ b ∈ s.data.map Char.toNat, b < 4294967296 := by
    intro b hb
    obtain ⟨c, _, rfl⟩ := List.mem_map.mp hb
    exact char_toNat_lt c
  have hct := ctrXor_lt key iv 0 (s.data.map Char.toNat) hchars
  have hiv36 : ∀ b ∈ iv, b < 68719476736 := fun b hb => by have := hiv b hb; omega
  have htag : gcmTag key iv (ctrXor key iv 0 (s.data.map Char.toNat)) < 68719476736 := by
    have := Nat.mod_lt (mixHash key * 7 + mixHash iv * 11 +
      mixHash (ctrXor key iv 0 (s.data.map Char.toNat)) * 13) (y := 1073741824) (by norm_num)
    simp only [gcmTag]
    omega
  rw [decrypt_mkEnvelope key iv _ _ hk hiv36 hct htag, if_pos rfl,
    ctrXor_ctrXor key iv 0]
  have hmap : ∀ l : List Char, (l.map Char.toNat).map Char.ofNat = l := by
    intro l
    induction l with
    | nil => rfl
    | cons c t ih => simp [ih, Char.ofNat_toNat]
  rw [hmap]

/-- Witness for C8 at a concrete plaintext, key and nonce. -/
theorem encrypt_decrypt_roundtrip_witness :
    ∃ env, encrypt "hunter2" (List.replicate 32 7) (List.replicate 16 3) = .ok env ∧
      decrypt env (List.replicate 32 7) = .ok "hunter2" :=
  encrypt_decrypt_roundtrip "hunter2" (List.replicate 32 7) (List.replicate 16 3)
    (by decide) (by decide) (by decide) (by decide)

/-! ## Account rows and the credential middleware (database.js, auth.js) -/

/-- Account row of the accounts table in database.js, restricted to the
columns the session core reads and writes.  Optional secret columns are
`none` when NULL; the password column is NOT NULL, with the empty string
marking an incomplete account. -/
structure AccountRecord where
  id : Nat
  username : String
  password : String
  shared_secret : Option String := none
  identity_secret : Option String := none
  persona_state : Nat := 1
  status : String := "offline"
  last_error : Option String := none
  is_idling : Bool := false
  failed_logins : Nat := 0
  lockout_until : Option Nat := none
  games : List Nat := []
deriving DecidableEq

/-- isIncomplete from database.js accountMethods: an account is
incomplete when its password column is falsy (empty). -/
def isIncomplete (a : AccountRecord) : Bool := a.password = ""

/-- Loop body of encryptAccountCredentials for the NOT NULL password
column: a truthy value that is not already encrypted is replaced by its
ciphertext, anything else is left as is. -/
def encryptFieldStr (k iv : Bytes) (s : String) : Except CryptoError String :=
  if s ≠ "" ∧ ¬ isEncrypted s then encrypt s k iv else .ok s

/-- Loop body of encryptAccountCredentials for a nullable secret column. -/
def encryptFieldOpt (k iv : Bytes) (v : Option String) : Except CryptoError (Option String) :=
  match v with
  | none => .ok none
  | some s => if s ≠ "" ∧ ¬ isEncrypted s then (encrypt s k iv).map some else .ok (some s)

/-- encryptAccountCredentials from middleware/auth.js.  With no cached
encryption key the data is returned untouched — the source logs a
warning and stores the credentials unencrypted.  With a cached key every
truthy, not-yet-encrypted field among ENCRYPTED_FIELDS = [password,
shared_secret, identity_secret] is replaced by its ciphertext; the
random nonce of each encrypt call is passed explicitly. -/
def encryptAccountCredentials (key : Option Bytes) (ivp ivs ivi : Bytes)
    (a : AccountRecord) : Except CryptoError AccountRecord :=
  match key with
  | none => .ok a
  | some k => do
    let p ← encryptFieldStr k ivp a.password
    let s ← encryptFieldOpt k ivs a.shared_secret
    let i ← encryptFieldOpt k ivi a.identity_secret
    .ok { a with password := p, shared_secret := s, identity_secret := i }

/-- Per-field behavior of decryptAccountCredentials from
middleware/auth.js: an encrypted value is decrypted, and a decryption
failure is caught and logged, leaving the stored ciphertext in place. -/
def decryptFieldStr (k : Bytes) (s : String) : String :=
  if s ≠ "" ∧ isEncrypted s then
    match decrypt s k with
    | .ok v => v
    | .error _ => s
  else s

/-- Nullable-column variant of `decryptFieldStr`. -/
def decryptFieldOpt (k : Bytes) (v : Option String) : Option String :=
  v.map (decryptFieldStr k)

/-- decryptAccountCredentials from middleware/auth.js: with no cached
key the record is returned as stored; with a key each encrypted field is
decrypted, per-field failures being caught. -/
def decryptAccountCredentials (key : Option Bytes) (a : AccountRecord) : AccountRecord :=
  match key with
  | none => a
  | some k =>
    { a with
      password := decryptFieldStr k a.password,
      shared_secret := decryptFieldOpt k a.shared_secret,
      identity_secret := decryptFieldOpt k a.identity_secret }

/-- Errors raised by AccountManager.create. -/
inductive CreateError where
  | missingFields
  | duplicate
  | crypto (e : CryptoError)
deriving DecidableEq

/-- AccountManager.create (services layer): validates that username and
password are present, rejects a duplicate username, encrypts the
sensitive fields through encryptAccountCredentials and hands the
resulting row to db.accounts.create.  The returned record is exactly
the row written to persistence (MAFile linking and the games table are
outside this model). -/
def accountManagerCreate (key : Option Bytes) (ivp ivs ivi : Bytes)
    (existing : List AccountRecord) (data : AccountRecord) :
    Except CreateError AccountRecord :=
  if data.username = "" ∨ data.password = "" then .error .missingFields
  else if existing.any (fun a => a.username == data.username) then .error .duplicate
  else
    match encryptAccountCredentials key ivp ivs ivi data with
    | .ok r => .ok r
    | .error e => .error (.crypto e)

/-! ## Lemmas about the credential middleware -/

theorem encrypt_ok_isEncrypted (s : String) (key iv : Bytes) (e : String)
    (hs : s ≠ "") (h : encrypt s key iv = .ok e) : isEncrypted e = true := by
  by_cases hk : key.length = 32
  · rw [encrypt_eq s key iv hs hk] at h
    cases h
    exact isEncrypted_mkEnvelope _ _ _
  · simp [encrypt, hs, hk] at h

theorem encryptFieldStr_ok (k iv : Bytes) (s v : String)
    (h : encryptFieldStr k iv s = .ok v) : v = "" ∨ isEncrypted v = true := by
  unfold encryptFieldStr at h
  split at h
  case isTrue hcond => exact Or.inr (encrypt_ok_isEncrypted s k iv v hcond.1 h)
  case isFalse hcond =>
    cases h
    rcases Decidable.not_and_iff_or_not.mp hcond with h1 | h2
    · exact Or.inl (Decidable.not_not.mp h1)
    · exact Or.inr (Decidable.not_not.mp h2)

theorem encryptFieldOpt_ok (k iv : Bytes) (v w : Option String)
    (h : encryptFieldOpt k iv v = .ok w) :
    ∀ s, w = some s → s = "" ∨ isEncrypted s = true := by
  intro s hw
  match v, h with
  | none, h => cases h; cases hw
  | some t, h =>
    simp only [encryptFieldOpt] at h
    split at h
    next hcond =>
      cases henc : encrypt t k iv with
      | ok e =>
        rw [henc] at h
        simp only [Except.map] at h
        cases h
        cases hw
        exact Or.inr (encrypt_ok_isEncrypted t k iv _ hcond.1 henc)
      | error err =>
        rw [henc] at h
        simp only [Except.map] at h
        cases h
    next hcond =>
      cases h
      cases hw
      rcases Decidable.not_and_iff_or_not.mp hcond with h1 | h2
      · exact Or.inl (Decidable.not_not.mp h1)
      · exact Or.inr (Decidable.not_not.mp h2)

/-- Decidable statement that a stored row has every nonempty secret
field in encrypted form (an error outcome writes nothing). -/
def secretsStored : Except CryptoError AccountRecord → Bool
  | .error _ => true
  | .ok r =>
    (r.password == "" || isEncrypted r.password) &&
    (match r.shared_secret with | none => true | some s => s == "" || isEncrypted s) &&
    (match r.identity_secret with | none => true | some s => s == "" || isEncrypted s)

instance {ε α : Type} [DecidableEq ε] [DecidableEq α] : DecidableEq (Except ε α) := fun x y =>
  match x, y with
  | .ok a, .ok b =>
    if h : a = b then .isTrue (by rw [h])
    else .isFalse (by intro hc; cases hc; exact h rfl)
  | .error a, .error b =>
    if h : a = b then .isTrue (by rw [h])
    else .isFalse (by intro hc; cases hc; exact h rfl)
  | .ok _, .error _ => .isFalse (by intro hc; cases hc)
  | .error _, .ok _ => .isFalse (by intro hc; cases hc)

/-- Stored-row check lifted over the create result. -/
def createStored : Except CreateError AccountRecord → Bool
  | .error _ => true
  | .ok r => secretsStored (.ok r)

theorem isEncrypted_ne_empty (s : String) (h : isEncrypted s = true) : s ≠ "" := by
  intro he
  subst he
  exact absurd h (by decide)

theorem secretsStored_encryptAccountCredentials (k ivp ivs ivi : Bytes) (a : AccountRecord) :
    secretsStored (encryptAccountCredentials (some k) ivp ivs ivi a) = true := by
  simp only [encryptAccountCredentials]
  cases hp : encryptFieldStr k ivp a.password with
  | error e => simp [Bind.bind, Except.bind, secretsStored, hp]
  | ok p =>
    cases hs : encryptFieldOpt k ivs a.shared_secret with
    | error e => simp [Bind.bind, Except.bind, secretsStored, hp, hs]
    | ok s =>
      cases hi : encryptFieldOpt k ivi a.identity_secret with
      | error e => simp [Bind.bind, Except.bind, secretsStored, hp, hs, hi]
      | ok i =>
        have h1 : (p == "" || isEncrypted p) = true := by
          rcases encryptFieldStr_ok k ivp a.password p hp with h | h <;> simp [h]
        simp only [Bind.bind, Except.bind, secretsStored, hp, hs, hi, h1,
          Bool.and_eq_true, Bool.true_and]
        constructor
        · cases s with
          | none => rfl
          | some t =>
            rcases encryptFieldOpt_ok k ivs a.shared_secret (some t) hs t rfl with h | h <;>
              simp [h]
        · cases i with
          | none => rfl
          | some t =>
            rcases encryptFieldOpt_ok k ivi a.identity_secret (some t) hi t rfl with h | h <;>
              simp [h]

theorem createStored_accountManagerCreate (k ivp ivs ivi : Bytes)
    (existing : List AccountRecord) (a : AccountRecord) :
    createStored (accountManagerCreate (some k) ivp ivs ivi existing a) = true := by
  simp only [accountManagerCreate]
  split
  · rfl
  · split
    · rfl
    · cases henc : encryptAccountCredentials (some k) ivp ivs ivi a with
      | error e => rfl
      | ok r =>
        have h := secretsStored_encryptAccountCredentials k ivp ivs ivi a
        rw [henc] at h
        exact h

/-- C3 (amended): when an encryption key is cached, every nonempty
secret field of the row written by create or update (both go through
encryptAccountCredentials) is stored in encrypted form; when no key is
cached the row is written exactly as supplied — possibly plaintext —
with a warning logged by the source. -/
theorem stored_secret_fields_encrypted (k ivp ivs ivi : Bytes)
    (existing : List AccountRecord) (a : AccountRecord) :
    encryptAccountCredentials none ivp ivs ivi a = .ok a ∧
    secretsStored (encryptAccountCredentials (some k) ivp ivs ivi a) = true ∧
    createStored (accountManagerCreate (some k) ivp ivs ivi existing a) = true :=
  ⟨rfl, secretsStored_encryptAccountCredentials k ivp ivs ivi a,
    createStored_accountManagerCreate k ivp ivs ivi existing a⟩

/-- Sample account submitted to create with plaintext credentials. -/
def sampleNewAccount : AccountRecord :=
  { id := 1, username := "alice", password := "hunter2", shared_secret := some "tfseed" }

/-- C3 counterexample: with no cached encryption key (the state right
after a restart, before the operator logs in), AccountManager.create
writes the password and two-factor secret to persistence exactly as
given, in plaintext — refuting "the values written to persistence for
these fields are ciphertext, never plaintext". -/
theorem create_without_key_stores_plaintext :
    accountManagerCreate none [] [] [] [] sampleNewAccount = .ok sampleNewAccount ∧
    sampleNewAccount.password = "hunter2" ∧
    isEncrypted sampleNewAccount.password = false ∧
    sampleNewAccount.shared_secret = some "tfseed" ∧
    isEncrypted "tfseed" = false := by decide

/-- Account row whose stored password bears the encryption marker but is
not a well-formed envelope. -/
def badCipherAccount : AccountRecord :=
  { id := 7, username := "bob", password := "$ENC$aa" }

/-- C4 (amended): for every stored value bearing the "$ENC$" marker,
decrypt raises an error — never returning data — whenever the envelope
does not split into exactly three fields or the authentication tag fails
verification; however decryptAccountCredentials catches each per-field
decryption error, logs it, and returns the account with the field left
as the stored ciphertext, so the failure is not propagated to its
caller. -/
theorem decrypt_failure_behavior :
    (∀ (s : String) (k : Bytes), isEncrypted s = true → k.length = 32 →
      (splitOnColon (s.data.drop encMagic.data.length)).length ≠ 3 →
      decrypt s k = .error .invalidFormat) ∧
    (∀ (k iv ct : Bytes) (tag : Nat), k.length = 32 →
      (∀ b ∈ iv, b < 68719476736) → (∀ b ∈ ct, b < 68719476736) → tag < 68719476736 →
      gcmTag k iv ct ≠ tag → decrypt (mkEnvelope iv tag ct) k = .error .authFailed) ∧
    (∀ (k : Bytes) (a : AccountRecord) (e : CryptoError),
      isEncrypted a.password = true → decrypt a.password k = .error e →
      (decryptAccountCredentials (some k) a).password = a.password) := by
  refine ⟨?_, ?_, ?_⟩
  · intro s k henc hk hlen
    have hne : s ≠ "" := isEncrypted_ne_empty s henc
    simp only [decrypt, if_neg hne, henc, not_true_eq_false, if_false, hk, ne_eq,
      not_false_eq_true, if_neg]
    rcases hq : splitOnColon (s.data.drop encMagic.data.length) with
      _ | ⟨p1, _ | ⟨p2, _ | ⟨p3, _ | ⟨p4, rest⟩⟩⟩⟩
    · rfl
    · rfl
    · rfl
    · rw [hq] at hlen
      simp at hlen
    · rfl
  · intro k iv ct tag hk hiv hct htag hne2
    rw [decrypt_mkEnvelope k iv ct tag hk hiv hct htag, if_neg hne2]
  · intro k a e henc hdec
    show decryptFieldStr k a.password = a.password
    have hne : a.password ≠ "" := isEncrypted_ne_empty _ henc
    simp only [decryptFieldStr, if_pos (And.intro hne henc), hdec]

/-- Witness for C4 at concrete inputs: a marker-bearing value that does
not split into three fields, an envelope with a mismatched tag, and an
account whose malformed stored password survives credential loading
unchanged. -/
theorem decrypt_failure_behavior_witness :
    decrypt "$ENC$ab" (List.replicate 32 0) = .error .invalidFormat ∧
    decrypt (mkEnvelope [1] 0 [2]) (List.replicate 32 0) = .error .authFailed ∧
    (decryptAccountCredentials (some (List.replicate 32 0)) badCipherAccount).password =
      badCipherAccount.password :=
  ⟨decrypt_failure_behavior.1 "$ENC$ab" (List.replicate 32 0)
      (by decide) (by decide) (by decide),
    decrypt_failure_behavior.2.1 (List.replicate 32 0) [1] [2] 0
      (by decide) (by decide) (by decide) (by decide) (by decide),
    decrypt_failure_behavior.2.2 (List.replicate 32 0) badCipherAccount .invalidFormat
      (by decide) (by decide)⟩

/-- C4 counterexample: decrypt raises on the malformed stored password
of `badCipherAccount`, but decryptAccountCredentials — the function that
supplies credentials to the session layer — catches the error and
returns the account unchanged, so no DecryptionError reaches its
caller. -/
theorem decrypt_error_swallowed_by_credential_loader :
    decrypt "$ENC$aa" (List.replicate 32 0) = .error .invalidFormat ∧
    decryptAccountCredentials (some (List.replicate 32 0)) badCipherAccount =
      badCipherAccount := by decide

/-! ## Lockout policy (steamService.js handleFailedLogin, config.js) -/

/-- Lockout duration computed by handleFailedLogin once the
post-increment failure count has reached the threshold:
min(baseDuration * 2^(count - maxFailedLogins), maxDuration) in
milliseconds; below the threshold no lockout is set. -/
def lockoutDurationMs (failedLogins : Nat) : Option Nat :=
  if failedLogins ≥ maxFailedLogins then
    some (min (lockoutBaseDuration * 2 ^ (failedLogins - maxFailedLogins)) lockoutMaxDuration)
  else none

/-- handleFailedLogin from steamService.js acting on the persisted
failure counter: increments it, then computes the lockout duration that
is written as lockout_until = now + duration whenever the new count has
reached the threshold. -/
def handleFailedLogin (failedLoginsBefore : Nat) : Nat × Option Nat :=
  let n := failedLoginsBefore + 1
  (n, lockoutDurationMs n)

/-- Failure counter after k consecutive failed logins starting from a
fresh account (counter 0) with no successful login in between. -/
def failuresAfter : Nat → Nat
  | 0 => 0
  | k + 1 => (handleFailedLogin (failuresAfter k)).1

/-! ## Session state machine (steamService.js) -/

/-- Row of the sessions table from database.js: one activity window.
The ended_at column is modelled by the `ended` flag — `ended = false`
corresponds to ended_at IS NULL, an in-progress window. -/
structure ActivityRecord where
  rid : Nat
  accountId : Nat
  games : List Nat
  ended : Bool
deriving DecidableEq

/-- Persistence state a session touches: the account row of the managed
identity and its rows of the sessions table. -/
structure DbState where
  account : AccountRecord
  records : List ActivityRecord
  nextRid : Nat
deriving DecidableEq

/-- db.sessions.start: inserts a new open window row and returns its
rowid (lastInsertRowid in the source). -/
def dbSessionsStart (db : DbState) (accId : Nat) (games : List Nat) : DbState × Nat :=
  ({ db with records := db.records ++ [⟨db.nextRid, accId, games, false⟩],
             nextRid := db.nextRid + 1 }, db.nextRid)

/-- db.sessions.end: stamps ended_at on the row with the given id. -/
def dbSessionsEnd (db : DbState) (rid : Nat) : DbState :=
  { db with records := db.records.map (fun r => if r.rid = rid then { r with ended := true } else r) }

/-- accountMethods.updateStatus from database.js. -/
def dbUpdateStatus (db : DbState) (status : String) (lastError : Option String) : DbState :=
  { db with account := { db.account with status := status, last_error := lastError } }

/-- accountMethods.setIdling from database.js. -/
def dbSetIdling (db : DbState) (idling : Bool) : DbState :=
  { db with account := { db.account with is_idling := idling } }

/-- accountMethods.resetFailedLogins from database.js (resetLockout). -/
def dbResetFailedLogins (db : DbState) : DbState :=
  { db with account := { db.account with failed_logins := 0, lockout_until := none } }

/-- In-memory SteamSession fields from steamService.js.  The pending
reconnect timer handle is modelled by the delay of the armed timer. -/
structure SessionState where
  isLoggedIn : Bool := false
  isIdling : Bool := false
  isConnecting : Bool := false
  currentGames : List Nat := []
  reconnectAttempts : Nat := 0
  reconnectTimer : Option Nat := none
  sessionId : Option Nat := none
deriving DecidableEq

/-- A session together with the persistence it writes to. -/
structure World where
  session : SessionState
  db : DbState
deriving DecidableEq

/-- Fresh world: a newly constructed SteamSession over an account row
with an empty sessions table. -/
def freshWorld (acc : AccountRecord) : World :=
  { session := {}, db := { account := acc, records := [], nextRid := 0 } }

/-- Number of open activity windows (rows with ended_at IS NULL) for an
identity. -/
def openWindows (db : DbState) (accId : Nat) : Nat :=
  (db.records.filter (fun r => r.accountId = accId ∧ r.ended = false)).length

/-- scheduleReconnect from steamService.js: cancels a pending timer,
gives up with a terminal error status once reconnectAttempts has reached
maxReconnectAttempts, and otherwise increments the attempt counter and
arms a timer with delay reconnectDelay * attempts. -/
def scheduleReconnect (w : World) : World :=
  if w.session.reconnectAttempts ≥ maxReconnectAttempts then
    { w with session := { w.session with reconnectTimer := none },
             db := dbUpdateStatus w.db "error" (some "Max reconnect attempts reached") }
  else
    let n := w.session.reconnectAttempts + 1
    { w with session := { w.session with reconnectAttempts := n,
                                         reconnectTimer := some (reconnectDelay * n) } }

/-- The loggedOn handler from steamService.js: marks the session online,
resets the attempt counter, cancels the pending timer, resets the
lockout record, persists the online status, and — when currentGames is
nonempty and the session or the persisted row says it should be idling —
auto-resumes by opening a new activity window, overwriting the stored
sessionId with the fresh rowid. -/
def loggedOnEvent (w : World) : World :=
  let s := { w.session with isLoggedIn := true, isConnecting := false,
                            reconnectAttempts := 0, reconnectTimer := none }
  let db1 := dbResetFailedLogins (dbUpdateStatus w.db "online" none)
  if s.currentGames ≠ [] ∧ (s.isIdling ∨ db1.account.is_idling) then
    let (db2, rid) := dbSessionsStart db1 db1.account.id s.currentGames
    { session := { s with isIdling := true, sessionId := some rid },
      db := dbSetIdling (dbUpdateStatus db2 "idling" none) true }
  else
    { session := s, db := db1 }

/-- The eresult values the error handler of steamService.js
distinguishes; `other` stands for every remaining transient connection
error. -/
inductive SteamEResult where
  | invalidPassword
  | accountLogonDenied
  | rateLimitExceeded
  | other
deriving DecidableEq

/-- handleFailedLogin from steamService.js as a persistence update:
increments the failure counter and, once the count has reached the
threshold, writes the lockout expiry and the locked status. -/
def handleFailedLoginW (w : World) : World :=
  let n := w.db.account.failed_logins + 1
  let db1 : DbState := { w.db with account := { w.db.account with failed_logins := n } }
  match lockoutDurationMs n with
  | some d =>
    let db2 : DbState := { db1 with account := { db1.account with lockout_until := some d } }
    { w with db := dbUpdateStatus db2 "locked" (some "Locked") }
  | none => { w with db := db1 }

/-- handleRateLimited from steamService.js: a fixed one-hour lockout. -/
def handleRateLimitedW (w : World) : World :=
  let db1 : DbState := { w.db with account := { w.db.account with lockout_until := some 3600000 } }
  { w with db := dbUpdateStatus db1 "locked" (some "Rate limited by Steam") }

/-- The error handler from steamService.js: clears the live flags,
persists the error status with the error message, then branches on the
eresult — invalid password accumulates lockout and never reconnects, a
Steam Guard denial returns without reconnecting, a rate limit sets the
fixed lockout, and every other (transient) error schedules a
reconnect.  The open activity window is not touched here. -/
def errorEvent (r : SteamEResult) (msg : String) (w : World) : World :=
  let s := { w.session with isLoggedIn := false, isConnecting := false, isIdling := false }
  let w1 : World := { session := s, db := dbUpdateStatus w.db "error" (some msg) }
  match r with
  | .invalidPassword => handleFailedLoginW w1
  | .accountLogonDenied => w1
  | .rateLimitExceeded => handleRateLimitedW w1
  | .other => scheduleReconnect w1

/-- The disconnected handler from steamService.js: clears the live
flags, ends the open activity window if one is tracked, and — when the
session was idling — persists the offline status and schedules a
reconnect. -/
def disconnectedEvent (w : World) : World :=
  let s := { w.session with isLoggedIn := false, isConnecting := false }
  let db1 := match s.sessionId with
    | some rid => dbSessionsEnd w.db rid
    | none => w.db
  let s1 := { s with sessionId := none }
  if s1.isIdling then
    scheduleReconnect { session := s1, db := dbUpdateStatus db1 "offline" none }
  else
    { session := s1, db := db1 }

/-- Idealized model of SteamTotp.generateAuthCode (external library): a
code derived deterministically from the shared secret and the current
time step. -/
def generateAuthCode (sharedSecret : String) : String :=
  ⟨sharedSecret.data.take 5⟩

/-- Outcome of the steamGuard challenge handler: either the generated
code is passed to the callback, or the challenge goes unanswered. -/
inductive GuardOutcome where
  | answered (code : String)
  | unanswered
deriving DecidableEq

/-- The steamGuard handler from steamService.js: with a shared secret on
file it answers the challenge with a generated code; without one it
persists the error status "Steam Guard code required" and returns —
never scheduling a reconnect. -/
def steamGuardEvent (sharedSecret : Option String) (w : World) : World × GuardOutcome :=
  match sharedSecret with
  | some sec => (w, .answered (generateAuthCode sec))
  | none =>
    ({ w with db := dbUpdateStatus w.db "error" (some "Steam Guard code required") },
     .unanswered)

/-- playGames from steamService.js: throws when not logged in; otherwise
records the games, marks the session idling, opens a NEW activity window
(overwriting the stored sessionId without ending a window that is still
open), persists the idling status and the desired-idle flag, and tells
the client to play. -/
def playGames (appIds : List Nat) (w : World) : Except String World :=
  if ¬ w.session.isLoggedIn then .error "Not logged in"
  else
    let (db1, rid) := dbSessionsStart w.db w.db.account.id appIds
    let s1 : SessionState :=
      { w.session with currentGames := appIds, isIdling := true, sessionId := some rid }
    .ok { session := s1, db := dbSetIdling (dbUpdateStatus db1 "idling" none) true }

/-- stopGames from steamService.js: clears the idling flags and games,
cancels a pending reconnect, ends the tracked activity window, persists
the online/offline status and desired-idle=false.  Idempotent. -/
def stopGames (w : World) : World :=
  let s : SessionState :=
    { w.session with isIdling := false, currentGames := ([] : List Nat), reconnectTimer := none }
  let db1 := match w.session.sessionId with
    | some rid => dbSessionsEnd w.db rid
    | none => w.db
  let status := if s.isLoggedIn then "online" else "offline"
  { session := { s with sessionId := none },
    db := dbSetIdling (dbUpdateStatus db1 status none) false }

/-- logout from steamService.js: cancels the pending timer, ends the
tracked activity window, clears every live flag, persists the offline
status and desired-idle=false, and releases the connection. -/
def logoutOp (w : World) : World :=
  let db1 := match w.session.sessionId with
    | some rid => dbSessionsEnd w.db rid
    | none => w.db
  let s1 : SessionState :=
    { w.session with isIdling := false, isLoggedIn := false, isConnecting := false,
                     currentGames := ([] : List Nat), reconnectTimer := none, sessionId := none }
  { session := s1, db := dbSetIdling (dbUpdateStatus db1 "offline" none) false }

/-! ## Sample accounts used for concrete evaluations -/

/-- A complete account with credentials on file. -/
def acc1 : AccountRecord := { id := 1, username := "alice", password := "pw" }

/-- An incomplete account: no credential set (empty password column). -/
def accIncomplete : AccountRecord := { id := 2, username := "carol", password := "" }

/-! ## C2: lockout arithmetic -/

/-- C2 counterexample: after the 4th consecutive failed login the
computed lockout duration is 60 minutes (3600000 ms), not the 30
minutes the claim states — the code reaches the threshold at the 3rd
failure (failed_logins >= maxFailedLogins), so failures 3, 4, 5 produce
30, 60, 120 minutes. -/
theorem fourth_failure_lockout_is_sixty_minutes :
    (handleFailedLogin (failuresAfter 3)).2 = some 3600000 ∧
    (3600000 : Nat) ≠ 30 * 60 * 1000 := by decide

/-- C2 (amended): with maxFailedLogins=3 and baseDuration=30min, the
lockout durations computed after the 3rd, 4th and 5th consecutive
failed login are exactly 30, 60 and 120 minutes; and every computed
lockout duration equals min(base * 2^(count - threshold), maxDuration),
hence is capped at maxDuration. -/
theorem lockout_durations :
    (handleFailedLogin (failuresAfter 2)).2 = some (30 * 60 * 1000) ∧
    (handleFailedLogin (failuresAfter 3)).2 = some (60 * 60 * 1000) ∧
    (handleFailedLogin (failuresAfter 4)).2 = some (120 * 60 * 1000) ∧
    (∀ k, failuresAfter k = k) ∧
    (∀ n d, lockoutDurationMs n = some d →
      d = min (lockoutBaseDuration * 2 ^ (n - maxFailedLogins)) lockoutMaxDuration ∧
      d ≤ lockoutMaxDuration) := by
  refine ⟨by decide, by decide, by decide, ?_, ?_⟩
  · intro k
    induction k with
    | zero => rfl
    | succ k ih => simp [failuresAfter, handleFailedLogin, ih]
  · intro n d h
    simp only [lockoutDurationMs] at h
    split at h
    · cases h
      exact ⟨rfl, min_le_right _ _⟩
    · cases h

/-- Witness for C2 at a concrete failure count where the cap binds:
the 10th failure computes 30min * 2^7 = 64 hours, capped to 24 hours. -/
theorem lockout_durations_witness :
    lockoutDurationMs 10 = some 86400000 ∧ (86400000 : Nat) ≤ lockoutMaxDuration :=
  ⟨by decide, (lockout_durations.2.2.2.2 10 86400000 (by decide)).2⟩

/-! ## C1: open activity windows -/

/-- C1 (code bug evaluation): two successive start calls for the same
logged-in identity leave TWO open activity records.  playGames opens a
new window and overwrites this.sessionId without ending the still-open
previous window; the same happens on the loggedOn auto-resume after an
error event, which never ends the tracked window.  This refutes the
claimed invariant that at most one ended_at-IS-NULL row exists per
identity at every instant. -/
theorem double_start_two_open_windows :
    ((playGames [730] (loggedOnEvent (freshWorld acc1))).bind (playGames [730])).map
      (fun w => openWindows w.db 1) = .ok 2 ∧
    ((playGames [730] (loggedOnEvent (freshWorld acc1))).map
      (fun w => openWindows (loggedOnEvent (errorEvent .other "connection lost" w)).db 1)) =
      .ok 2 ∧
    ¬ (2 ≤ 1) := by decide

/-! ## C6: reconnect bound -/

/-- World state after k consecutive transient connection failures (each
one raising the error handler with a non-special eresult), starting
from a fresh session, with no intervening successful login. -/
def afterTransientFailures : Nat → World → World
  | 0, w => w
  | k + 1, w => errorEvent .other "connection lost" (afterTransientFailures k w)

theorem errorEvent_other_attempts (msg : String) (w : World) :
    (errorEvent .other msg w).session.reconnectAttempts =
      if w.session.reconnectAttempts ≥ maxReconnectAttempts then w.session.reconnectAttempts
      else w.session.reconnectAttempts + 1 := by
  simp only [errorEvent, scheduleReconnect, dbUpdateStatus]
  split <;> rfl

theorem errorEvent_other_timer (msg : String) (w : World) :
    (errorEvent .other msg w).session.reconnectTimer =
      if w.session.reconnectAttempts ≥ maxReconnectAttempts then none
      else some (reconnectDelay * (w.session.reconnectAttempts + 1)) := by
  simp only [errorEvent, scheduleReconnect, dbUpdateStatus]
  split <;> rfl

theorem errorEvent_other_lastError (msg : String) (w : World) :
    (errorEvent .other msg w).db.account.last_error =
      if w.session.reconnectAttempts ≥ maxReconnectAttempts then
        some "Max reconnect attempts reached"
      else some msg := by
  simp only [errorEvent, scheduleReconnect, dbUpdateStatus]
  split <;> rfl

theorem errorEvent_other_status (msg : String) (w : World) :
    (errorEvent .other msg w).db.account.status = "error" := by
  simp only [errorEvent, scheduleReconnect, dbUpdateStatus]
  split <;> rfl

theorem afterTransientFailures_attempts (acc : AccountRecord) :
    ∀ k, (afterTransientFailures k (freshWorld acc)).session.reconnectAttempts =
      min k maxReconnectAttempts := by
  intro k
  induction k with
  | zero => simp [afterTransientFailures, freshWorld]
  | succ k ih =>
    show (errorEvent .other "connection lost" (afterTransientFailures k (freshWorld acc))).session.reconnectAttempts = _
    rw [errorEvent_other_attempts, ih]
    simp only [maxReconnectAttempts]
    split <;> omega

/-- C6 (amended): delays grow linearly — the k-th consecutive transient
failure (k ≤ maxReconnectAttempts) arms a timer with delay
reconnectDelay * k — and the session reaches the terminal Error state
("Max reconnect attempts reached", no timer armed, none ever re-armed)
on the (maxReconnectAttempts + 1)-th consecutive transient failure,
i.e. when the failure count exceeds the bound, not when it reaches it. -/
theorem reconnect_bound_policy (acc : AccountRecord) :
    (∀ k, 1 ≤ k → k ≤ maxReconnectAttempts →
      (afterTransientFailures k (freshWorld acc)).session.reconnectTimer =
        some (reconnectDelay * k)) ∧
    (∀ k, maxReconnectAttempts + 1 ≤ k →
      (afterTransientFailures k (freshWorld acc)).session.reconnectTimer = none ∧
      (afterTransientFailures k (freshWorld acc)).db.account.status = "error" ∧
      (afterTransientFailures k (freshWorld acc)).db.account.last_error =
        some "Max reconnect attempts reached") := by
  constructor
  · intro k h1 h2
    cases k with
    | zero => omega
    | succ j =>
      show (errorEvent .other "connection lost" (afterTransientFailures j (freshWorld acc))).session.reconnectTimer = _
      rw [errorEvent_other_timer, afterTransientFailures_attempts acc j]
      have hj : ¬ (min j maxReconnectAttempts ≥ maxReconnectAttempts) := by
        simp only [maxReconnectAttempts] at h2 ⊢
        omega
      rw [if_neg hj]
      have : min j maxReconnectAttempts = j := by
        simp only [maxReconnectAttempts] at h2 ⊢
        omega
      rw [this]
  · intro k hk
    cases k with
    | zero => omega
    | succ j =>
      have hj : min j maxReconnectAttempts ≥ maxReconnectAttempts := by
        simp only [maxReconnectAttempts] at hk ⊢
        omega
      refine ⟨?_, ?_, ?_⟩
      · show (errorEvent .other "connection lost" (afterTransientFailures j (freshWorld acc))).session.reconnectTimer = _
        rw [errorEvent_other_timer, afterTransientFailures_attempts acc j, if_pos hj]
      · exact errorEvent_other_status _ _
      · show (errorEvent .other "connection lost" (afterTransientFailures j (freshWorld acc))).db.account.last_error = _
        rw [errorEvent_other_lastError, afterTransientFailures_attempts acc j, if_pos hj]

/-- Witness for C6 at concrete failure counts: the 3rd failure arms a
90-second timer, and after 11 consecutive failures the session is in
the terminal Error state with no timer armed. -/
theorem reconnect_bound_policy_witness :
    (afterTransientFailures 3 (freshWorld acc1)).session.reconnectTimer = some 90000 ∧
    (afterTransientFailures 11 (freshWorld acc1)).session.reconnectTimer = none ∧
    (afterTransientFailures 11 (freshWorld acc1)).db.account.status = "error" ∧
    (afterTransientFailures 11 (freshWorld acc1)).db.account.last_error =
      some "Max reconnect attempts reached" := by
  refine ⟨?_, ?_, ?_, ?_⟩
  · have h := (reconnect_bound_policy acc1).1 3 (by decide) (by decide)
    simpa [reconnectDelay] using h
  · exact ((reconnect_bound_policy acc1).2 11 (by decide)).1
  · exact ((reconnect_bound_policy acc1).2 11 (by decide)).2.1
  · exact ((reconnect_bound_policy acc1).2 11 (by decide)).2.2

/-- C6 counterexample: after EXACTLY maxReconnectAttempts = 10
consecutive transient failures the session has not reached the terminal
state — a 10th reconnect timer (delay 300s) is still armed and the
persisted error message is the transient one, refuting "after exactly
maxReconnectAttempts consecutive transient connection failures the
Session reaches the Error state with a terminal message and never
schedules another reconnect timer". -/
theorem after_max_failures_timer_still_armed :
    (afterTransientFailures 10 (freshWorld acc1)).session.reconnectTimer = some 300000 ∧
    (afterTransientFailures 10 (freshWorld acc1)).db.account.last_error =
      some "connection lost" ∧
    (afterTransientFailures 10 (freshWorld acc1)).db.account.last_error ≠
      some "Max reconnect attempts reached" := by decide

/-! ## C7: Steam Guard challenge without a shared secret -/

/-- C7: when a two-factor challenge arrives for an identity with no
shared secret on file, the handler persists an Error status whose
message contains "Steam Guard", leaves the challenge unanswered, and
arms no reconnect timer; the AccountLogonDenied error path likewise
returns without scheduling a reconnect. -/
theorem steam_guard_no_secret (w : World) (h : w.session.reconnectTimer = none) :
    (steamGuardEvent none w).1.db.account.status = "error" ∧
    (steamGuardEvent none w).1.db.account.last_error = some "Steam Guard code required" ∧
    ("Steam Guard".data).IsInfix ("Steam Guard code required" : String).data ∧
    (steamGuardEvent none w).1.session.reconnectTimer = none ∧
    (steamGuardEvent none w).2 = .unanswered ∧
    (∀ msg, (errorEvent .accountLogonDenied msg w).session.reconnectTimer = none) := by
  refine ⟨rfl, rfl, by decide, h, rfl, fun msg => h⟩

/-- Witness for C7 at a fresh session for an identity without a shared
secret. -/
theorem steam_guard_no_secret_witness :
    (steamGuardEvent none (freshWorld acc1)).1.db.account.last_error =
      some "Steam Guard code required" ∧
    (steamGuardEvent none (freshWorld acc1)).1.session.reconnectTimer = none ∧
    (errorEvent .accountLogonDenied "denied" (freshWorld acc1)).session.reconnectTimer = none :=
  ⟨(steam_guard_no_secret (freshWorld acc1) rfl).2.1,
    (steam_guard_no_secret (freshWorld acc1) rfl).2.2.2.1,
    (steam_guard_no_secret (freshWorld acc1) rfl).2.2.2.2.2 "denied"⟩

/-! ## C5: the start entry point -/

/-- Caller-facing validation failures of start (error taxonomy of the
spec: NotFoundError, IncompleteAccountError). -/
inductive StartErr where
  | notFound
  | incomplete
deriving DecidableEq

/-- Credentials and activity set with which the session proceeds to the
login attempt. -/
structure LoginAttempt where
  accountId : Nat
  username : String
  password : String
  games : List Nat
deriving DecidableEq

/-- The start(id) entry point: the POST /api/accounts/:id/start route
composed with SteamService.startIdling.  The route looks the account up
(404 "Account not found" when unknown), rejects an incomplete account
(400 "Account setup incomplete"), and then startIdling loads the
decrypted account, picks its games list (falling back to defaultGames
when empty) and proceeds to session.login() with the decrypted
credentials. -/
def startAccountRoute (key : Option Bytes) (accounts : List AccountRecord) (id : Nat) :
    Except StartErr LoginAttempt :=
  match accounts.find? (fun a => a.id == id) with
  | none => .error .notFound
  | some account =>
    if isIncomplete account then .error .incomplete
    else
      let dec := decryptAccountCredentials key account
      let games := if dec.games = [] then defaultGames else dec.games
      .ok { accountId := id, username := dec.username, password := dec.password, games := games }

/-- C5: start(id) fails with NotFoundError for an unknown identity,
fails with IncompleteAccountError when the identity has no credential
set, and otherwise proceeds to a login attempt with the decrypted
credentials. -/
theorem start_route_validation (key : Option Bytes) (accounts : List AccountRecord) (id : Nat) :
    (accounts.find? (fun a => a.id == id) = none →
      startAccountRoute key accounts id = .error .notFound) ∧
    (∀ a, accounts.find? (fun a => a.id == id) = some a → isIncomplete a = true →
      startAccountRoute key accounts id = .error .incomplete) ∧
    (∀ a, accounts.find? (fun a => a.id == id) = some a → isIncomplete a = false →
      ∃ la, startAccountRoute key accounts id = .ok la ∧
        la.password = (decryptAccountCredentials key a).password) := by
  refine ⟨?_, ?_, ?_⟩
  · intro h
    simp [startAccountRoute, h]
  · intro a h hi
    simp [startAccountRoute, h, hi]
  · intro a h hi
    simp only [startAccountRoute, h, hi, Bool.false_eq_true, if_false]
    exact ⟨_, rfl, rfl⟩

/-- Witness for C5: an unknown id, a credential-less account, and a
complete account that proceeds to a login attempt with its credentials
and the default games list. -/
theorem start_route_validation_witness :
    startAccountRoute none [acc1] 5 = .error .notFound ∧
    startAccountRoute none [accIncomplete] 2 = .error .incomplete ∧
    startAccountRoute none [acc1] 1 =
      .ok { accountId := 1, username := "alice", password := "pw", games := [730] } :=
  ⟨(start_route_validation none [acc1] 5).1 (by decide),
   (start_route_validation none [accIncomplete] 2).2.1 accIncomplete (by decide) (by decide),
   by decide⟩

/-! ## C9: resume after restart -/

/-- Loop body of resumeIdling: each account is attempted in its own
try/catch, the outcome (resumed or failed) being logged per account, so
one failure never aborts the remaining attempts. -/
def resumeOutcomes (startRes : AccountRecord → Except String Unit) :
    List AccountRecord → List (Nat × Bool)
  | [] => []
  | a :: rest =>
    (match startRes a with
     | .ok _ => (a.id, true)
     | .error _ => (a.id, false)) :: resumeOutcomes startRes rest

/-- Result of resumeIdling: whether resumption was deferred for lack of
the decryption key, and the logged per-account outcomes. -/
structure ResumeResult where
  deferred : Bool
  outcomes : List (Nat × Bool)
deriving DecidableEq

/-- resumeIdling from steamService.js: when idling accounts exist but
the encryption key is not yet cached, resumption is deferred (logged and
returned without attempts); otherwise every account with the persisted
desired-idle flag is attempted via startIdling, outcomes logged one by
one.  The start attempt itself is abstracted as `startRes`. -/
def resumeIdling (key : Option Bytes) (idlingAccounts : List AccountRecord)
    (startRes : AccountRecord → Except String Unit) : ResumeResult :=
  if idlingAccounts.length > 0 ∧ key = none then
    { deferred := true, outcomes := [] }
  else
    { deferred := false, outcomes := resumeOutcomes startRes idlingAccounts }

/-- The login route from routes/auth.js: after a successful operator
login the encryption key is derived and cached (setEncryptionKey), then
resumeIdling is triggered — the deferred resumption is retried with the
key available. -/
def loginRouteResume (k : Bytes) (idlingAccounts : List AccountRecord)
    (startRes : AccountRecord → Except String Unit) : ResumeResult :=
  resumeIdling (some k) idlingAccounts startRes

theorem resumeOutcomes_length (f : AccountRecord → Except String Unit) :
    ∀ l, (resumeOutcomes f l).length = l.length := by
  intro l
  induction l with
  | nil => rfl
  | cons a t ih => cases hfa : f a <;> simp [resumeOutcomes, hfa, ih]

theorem resumeOutcomes_ids (f : AccountRecord → Except String Unit) :
    ∀ l, (resumeOutcomes f l).map Prod.fst = l.map AccountRecord.id := by
  intro l
  induction l with
  | nil => rfl
  | cons a t ih => cases hfa : f a <;> simp [resumeOutcomes, hfa, ih]

/-- C9: with the key available and N persisted idling identities,
resumeAfterRestart attempts exactly N starts, logging an outcome for
every identity in order regardless of individual failures; with the key
unavailable resumption is deferred with no attempts; and the login route
retries it with the key once the operator has provided it. -/
theorem resume_after_restart_behavior (k : Bytes) (accs : List AccountRecord)
    (startRes : AccountRecord → Except String Unit) :
    ((resumeIdling (some k) accs startRes).deferred = false ∧
      (resumeIdling (some k) accs startRes).outcomes.length = accs.length ∧
      (resumeIdling (some k) accs startRes).outcomes.map Prod.fst = accs.map AccountRecord.id) ∧
    (accs ≠ [] →
      (resumeIdling none accs startRes).deferred = true ∧
      (resumeIdling none accs startRes).outcomes = []) ∧
    ((loginRouteResume k accs startRes).deferred = false ∧
      (loginRouteResume k accs startRes).outcomes.length = accs.length) := by
  have hsome : resumeIdling (some k) accs startRes =
      { deferred := false, outcomes := resumeOutcomes startRes accs } := by
    simp [resumeIdling]
  refine ⟨?_, ?_, ?_⟩
  · rw [hsome]
    exact ⟨rfl, resumeOutcomes_length startRes accs, resumeOutcomes_ids startRes accs⟩
  · intro hne
    have hpos : accs.length > 0 := List.length_pos.mpr hne
    simp [resumeIdling, hpos]
  · rw [loginRouteResume, hsome]
    exact ⟨rfl, resumeOutcomes_length startRes accs⟩

/-- Start attempt stub in which the first identity fails to log in. -/
def sampleStartRes : AccountRecord → Except String Unit :=
  fun a => if a.id == 1 then .error "simulated login failure" else .ok ()

/-- Witness for C9: two idling identities with the first one failing —
both are attempted and logged; with no key resumption is deferred; the
login route retries with the key available. -/
theorem resume_after_restart_behavior_witness :
    (resumeIdling (some (List.replicate 32 0)) [acc1, accIncomplete] sampleStartRes).outcomes =
      [(1, false), (2, true)] ∧
    (resumeIdling none [acc1] sampleStartRes).deferred = true ∧
    (resumeIdling none [acc1] sampleStartRes).outcomes = [] ∧
    (loginRouteResume (List.replicate 32 0) [acc1] sampleStartRes).outcomes.length = 1 :=
  ⟨by decide,
   ((resume_after_restart_behavior (List.replicate 32 0) [acc1] sampleStartRes).2.1
      (by decide)).1,
   ((resume_after_restart_behavior (List.replicate 32 0) [acc1] sampleStartRes).2.1
      (by decide)).2,
   (resume_after_restart_behavior (List.replicate 32 0) [acc1] sampleStartRes).2.2.2⟩

/-! ## C10: getStatus is total -/

/-- Status object returned by SteamSession.getStatus (steamId and
personaName, read from the live client, are outside the model). -/
structure StatusReport where
  isLoggedIn : Bool
  isIdling : Bool
  currentGames : List Nat
deriving DecidableEq

/-- SteamSession.getStatus from steamService.js. -/
def sessionGetStatus (s : SessionState) : StatusReport :=
  { isLoggedIn := s.isLoggedIn, isIdling := s.isIdling, currentGames := s.currentGames }

/-- SteamService.getStatus from steamService.js: the registry map
(accountId -> session) is modelled as a function into Option; a missing
session yields the default status object. -/
def serviceGetStatus (sessions : Nat → Option SessionState) (id : Nat) : StatusReport :=
  match sessions id with
  | some s => sessionGetStatus s
  | none => { isLoggedIn := false, isIdling := false, currentGames := [] }

/-- C10: getStatus is total — for an identity with no live session
(unknown, never started, or logged out and removed from the registry
map) it returns the default status object instead of failing. -/
theorem getStatus_total_default (sessions : Nat → Option SessionState) (id : Nat)
    (h : sessions id = none) :
    serviceGetStatus sessions id =
      { isLoggedIn := false, isIdling := false, currentGames := [] } := by
  simp [serviceGetStatus, h]

/-- Witness for C10 on an empty registry map. -/
theorem getStatus_total_default_witness :
    serviceGetStatus (fun _ => none) 42 =
      { isLoggedIn := false, isIdling := false, currentGames := [] } :=
  getStatus_total_default (fun _ => none) 42 rfl

end HourBoost
